import Mathlib

/-!
Verification of the krakenrs websocket streaming core.

This file gives a shallow embedding, in Lean, of the parts of the Rust
sources `src/ws/types.rs`, `src/ws/conn.rs` and `src/ws/config.rs` that the
stated properties are about, and proves or refutes each property.

Modelling conventions:
* `rust_decimal::Decimal` values are modelled as `Rat` (the `Decimal`
  `PartialEq`/`Ord` instances compare numerically, so numerically equal
  representations are the same `BTreeMap` key, which `Rat` reflects).
* `BTreeMap<Decimal, BookEntry>` is modelled as a strictly ascending
  association list `List (Rat × BookEntry)`; insertion and removal are the
  ordered-list analogues of the map operations.
* Machine integers (`u32`, `u64`) are modelled as `Nat`, with `% 2 ^ 64`
  (resp. a `< 2 ^ 32` bound) where the Rust code can wrap or reject overflow.
* Wall-clock values (`std::time::Instant`, the `last_update` /
  `last_request` timestamps) are not modelled; no verified property
  mentions them.
* JSON plumbing: the updates passed to `update_asks` / `update_bids` are
  arrays of `[price, volume, timestamp, ...]` string triples on the wire;
  they are modelled as `List RawLevel` with `RawLevel = String × String ×
  String`.  Frames whose envelope is malformed (non-array, non-string
  members) are rejected before the modelled code runs and are not needed by
  any property below.
-/

namespace Krakenrs

instance {ε α : Type} [DecidableEq ε] [DecidableEq α] : DecidableEq (Except ε α) := fun
  | .error e, .error e' =>
    if h : e = e' then .isTrue (by rw [h])
    else .isFalse (by intro hc; cases hc; exact h rfl)
  | .error _, .ok _ => .isFalse (by intro hc; cases hc)
  | .ok _, .error _ => .isFalse (by intro hc; cases hc)
  | .ok a, .ok a' =>
    if h : a = a' then .isTrue (by rw [h])
    else .isFalse (by intro hc; cases hc; exact h rfl)

/-- Raw price level triple from the wire: price string, volume string,
timestamp string (`data[0]`, `data[1]`, `data[2]` in `update_internal`). -/
abbrev RawLevel : Type := String × String × String

/-- An entry in an order book (`BookEntry` in `src/ws/types.rs`). -/
structure BookEntry where
  /-- The volume of this book entry. -/
  volume : Rat
  /-- The timestamp of this book entry (seconds since epoch). -/
  timestamp : Rat
  /-- The price of this book entry, original digit string, for computing checksum. -/
  price_str : String
  /-- The volume of this book entry, original digit string, for computing checksum. -/
  volume_str : String
deriving DecidableEq, Repr

/-- One side of the book: model of `BTreeMap<Decimal, BookEntry>` as an
association list in strictly ascending key order. -/
abbrev Side : Type := List (Rat × BookEntry)

/-- The strictly-ascending-keys invariant of a `BTreeMap` model. -/
def SortedSide (l : Side) : Prop :=
  List.Pairwise (fun a b : Rat × BookEntry => a.1 < b.1) l

instance (l : Side) : Decidable (SortedSide l) := by
  unfold SortedSide; infer_instance

/-- Model of `BTreeMap::insert`: replace the entry at an existing key, or
insert at the ordered position of a new key. -/
def insertEntry (k : Rat) (v : BookEntry) : Side → Side
  | [] => [(k, v)]
  | (k', v') :: rest =>
    if k < k' then (k, v) :: (k', v') :: rest
    else if k = k' then (k, v) :: rest
    else (k', v') :: insertEntry k v rest

/-- Model of `BTreeMap::remove`: delete the entry at the key, if present. -/
def eraseKey (k : Rat) : Side → Side
  | [] => []
  | (k', v') :: rest => if k = k' then rest else (k', v') :: eraseKey k rest

/-- Model of `BTreeMap::get`: look an entry up by key. -/
def lookupKey (k : Rat) : Side → Option BookEntry
  | [] => none
  | (k', v') :: rest => if k = k' then some v' else lookupKey k rest

/-- Value of a digit string, most significant digit first. -/
def digitsToNat (l : List Char) : Nat :=
  l.foldl (fun acc c => acc * 10 + (c.toNat - 48)) 0

/-- Model of `rust_decimal::Decimal::from_str`, producing the numeric value:
an optional sign, then digit characters with at most one decimal point and
at least one digit.  (The 96-bit mantissa overflow and rounding behaviour of
`rust_decimal` past 28 significant digits is not modelled; every numeral in
the properties below is far below that bound.) -/
def parseDecimal (s : String) : Option Rat :=
  let cs := s.data
  let (neg, cs) :=
    match cs with
    | '-' :: rest => (true, rest)
    | '+' :: rest => (false, rest)
    | cs => (false, cs)
  let intPart := cs.takeWhile (fun c => c != '.')
  let rest := cs.dropWhile (fun c => c != '.')
  let fracPart := rest.drop 1
  if fracPart.any (fun c => c == '.') then
    none
  else if (intPart ++ fracPart).isEmpty then
    none
  else if (intPart ++ fracPart).all Char.isDigit then
    let mantissa : Int := (digitsToNat (intPart ++ fracPart) : Int)
    let signed : Int := if neg then -mantissa else mantissa
    some (mkRat signed ((10 : Nat) ^ fracPart.length))
  else
    none

/-- The parsed form of one raw level: the price key together with the
`BookEntry` that `update_internal` would build for it (volume and timestamp
parsed, price and volume digit strings retained verbatim). -/
def parsedEntry (t : RawLevel) : Option (Rat × BookEntry) :=
  match parseDecimal t.1, parseDecimal t.2.1, parseDecimal t.2.2 with
  | some p, some v, some ts => some (p, ⟨v, ts, t.1, t.2.1⟩)
  | _, _, _ => none

/-- `BookEntry::format_str_for_hash`: drop every decimal point, then drop
everything up to the first non-zero character (all of it, if every character
is zero). -/
def format_str_for_hash (arg : String) : String :=
  let remove_decimal : List Char := arg.data.filter (fun x => x != '.')
  let first_nonzero : Nat := remove_decimal.findIdx (fun x => x != '0')
  String.mk (remove_decimal.drop first_nonzero)

/-- One bit-round of CRC-32 (IEEE, reflected, polynomial `0xEDB88320`),
as computed by the `crc32fast` crate. -/
def crc32_step_bit (c : Nat) : Nat :=
  if c % 2 = 1 then (c / 2) ^^^ 0xEDB88320 else c / 2

/-- Iterate the CRC-32 bit round. -/
def crc32_rounds : Nat → Nat → Nat
  | 0, c => c
  | n + 1, c => crc32_rounds n (crc32_step_bit c)

/-- Feed one byte into the CRC-32 state. -/
def crc32_update_byte (c b : Nat) : Nat :=
  crc32_rounds 8 (c ^^^ (b % 256))

/-- CRC-32 (IEEE) of a byte sequence, the checksum `crc32fast` computes. -/
def crc32 (bytes : List Nat) : Nat :=
  (bytes.foldl crc32_update_byte 0xFFFFFFFF) ^^^ 0xFFFFFFFF

/-- Bytes of a string.  All hashed strings are normalized numerals, hence
ASCII, where the UTF-8 bytes are exactly the character codes. -/
def strBytes (s : String) : List Nat := s.data.map Char.toNat

/-- `BookEntry::crc32`: the bytes this entry feeds to the hasher. -/
def BookEntry.crc32_bytes (e : BookEntry) : List Nat :=
  strBytes (format_str_for_hash e.price_str) ++ strBytes (format_str_for_hash e.volume_str)

/-- The state of the book for some asset pair (`BookData` in
`src/ws/types.rs`; the `last_update : Option<Instant>` field is wall-clock
time and is not modelled). -/
structure BookData where
  /-- The current asks, sorted by price. -/
  ask : Side
  /-- The current bids, sorted by price. -/
  bid : Side
  /-- Indicates that the book data is invalid. -/
  checksum_failed : Bool
deriving DecidableEq

/-- `Default::default()` for `BookData`. -/
def BookData.default : BookData := ⟨[], [], false⟩

/-- `BookData::clear`: reset to the default state. -/
def BookData.clear (_b : BookData) : BookData := BookData.default

/-- `BookData::checksum`: CRC-32 over the ten lowest asks (ascending) then
the ten highest bids (descending), each contributing its normalized price
string then its normalized volume string. -/
def BookData.checksum (b : BookData) : Nat :=
  let entries := b.ask.take 10 ++ b.bid.reverse.take 10
  crc32 ((entries.map (fun x => x.2.crc32_bytes)).flatten)

/-- The body of the `update_internal` loop for a single price-level triple:
parse price, volume and timestamp; remove the price level if the volume is
zero, else insert/replace it, keeping the original digit strings. -/
def update_step (side : Side) (t : RawLevel) : Side :=
  match parsedEntry t with
  | some (p, e) => if e.volume = 0 then eraseKey p side else insertEntry p e side
  | none => side

/-- `BookData::update_internal`: apply each raw level in order; on the
first parse failure stop, keeping the updates already applied (the Rust
code mutates the side in place and returns `Err` mid-loop), and report the
error string. -/
def update_internal (side : Side) : List RawLevel → Side × Option String
  | [] => (side, none)
  | t :: rest =>
    match parseDecimal t.1 with
    | none => (side, some "could not parse price level")
    | some p =>
      match parseDecimal t.2.1 with
      | none => (side, some "could not parse volume")
      | some v =>
        match parseDecimal t.2.2 with
        | none => (side, some "could not parse timestamp")
        | some ts =>
          let side' :=
            if v = 0 then eraseKey p side
            else insertEntry p ⟨v, ts, t.1, t.2.1⟩ side
          update_internal side' rest

/-- `BookData::update_asks`: run `update_internal` on the ask side, then, if
more than `depth` entries remain, keep only the first `depth` many (the
lowest-priced asks).  On error the truncation is skipped (`?` returns
early). -/
def BookData.update_asks (b : BookData) (data : List RawLevel) (depth : Nat) :
    BookData × Option String :=
  match update_internal b.ask data with
  | (ask', some e) => ({ b with ask := ask' }, some e)
  | (ask', none) =>
    ({ b with ask := if ask'.length > depth then ask'.take depth else ask' }, none)

/-- `BookData::update_bids`: run `update_internal` on the bid side, then, if
more than `depth` entries remain, keep only the last `depth` many (the
highest-priced bids).  On error the truncation is skipped. -/
def BookData.update_bids (b : BookData) (data : List RawLevel) (depth : Nat) :
    BookData × Option String :=
  match update_internal b.bid data with
  | (bid', some e) => ({ b with bid := bid' }, some e)
  | (bid', none) =>
    ({ b with bid := if bid'.length > depth then bid'.drop (bid'.length - depth) else bid' },
      none)

/-- Possible subscription status types (`SubscriptionStatus` in
`src/ws/messages.rs`); the default is `unsubscribed`. -/
inductive SubscriptionStatus where
  | subscribed
  | unsubscribed
  | error
deriving DecidableEq, Repr

/-- `SubscriptionStatus::is_subscribed`. -/
def SubscriptionStatus.is_subscribed (s : SubscriptionStatus) : Bool :=
  s == .subscribed

/-- Subscription state tracked per channel (`SubscriptionState` in
`src/ws/conn.rs`; the `last_request` timestamp pair is wall-clock time and
is not modelled — no property below mentions the back-off window). -/
structure SubscriptionState where
  /-- The last status that Kraken reported for this subscription. -/
  status : SubscriptionStatus
  /-- A note to ourselves that we intend to unsubscribe and resubscribe due
  to an error that we detected. -/
  needs_unsubscribe : Bool
  /-- A sequence number, for those subscriptions that use it.  Starts at 0
  when status is subscribed, `none` when unsubscribed. -/
  sequence_number : Option Nat
deriving DecidableEq, Repr

/-- `SubscriptionState::new`: fresh state for a reported status; the
sequence counter starts at 0 exactly when the status is subscribed. -/
def SubscriptionState.new (status : SubscriptionStatus) : SubscriptionState :=
  { status := status
    needs_unsubscribe := false
    sequence_number := if status.is_subscribed then some 0 else none }

/-- `SubscriptionState::check_sequence_number`: the incoming number must be
exactly the stored counter plus one (`u64` arithmetic, hence the
`% 2 ^ 64`); on mismatch set `needs_unsubscribe` and fail, on match
increment the counter. -/
def SubscriptionState.check_sequence_number (s : SubscriptionState)
    (new_sequence_number : Nat) : SubscriptionState × Except String Unit :=
  match s.sequence_number with
  | none =>
    (s, .error "unexpected message (no sequence number expected for this channel right now)")
  | some expected =>
    if (expected + 1) % 2 ^ 64 ≠ new_sequence_number then
      ({ s with needs_unsubscribe := true }, .error "sequence number mismatch")
    else
      ({ s with sequence_number := some ((expected + 1) % 2 ^ 64) }, .ok ())

/-- Run `check_sequence_number` over a whole list of incoming sequence
numbers; `true` iff every one of them is accepted. -/
def accepts_all (s : SubscriptionState) : List Nat → Bool
  | [] => true
  | n :: rest =>
    match s.check_sequence_number n with
    | (s', .ok _) => accepts_all s' rest
    | (_, .error _) => false

/-- One object of a book channel message: the optional `"as"`/`"bs"`
snapshot arrays, the optional `"a"`/`"b"` incremental arrays, and the
optional `"c"` checksum string. -/
structure BookUpdateObj where
  as_snap : Option (List RawLevel)
  bs_snap : Option (List RawLevel)
  a : Option (List RawLevel)
  b : Option (List RawLevel)
  c : Option String
deriving DecidableEq

/-- Model of `u32::from_str`: an optional `+`, then at least one digit,
rejecting values that overflow 32 bits. -/
def parse_u32 (s : String) : Option Nat :=
  let cs := match s.data with
    | '+' :: rest => rest
    | cs => cs
  if cs.isEmpty then none
  else if cs.all Char.isDigit then
    let n := digitsToNat cs
    if n < 2 ^ 32 then some n else none
  else none

/-- Apply the `"a"` then the `"b"` part of one incremental update object to
the book, stopping at the first error. -/
def apply_update_obj_ab (book : BookData) (obj : BookUpdateObj) (depth : Nat) :
    BookData × Option String :=
  let (book, e) :=
    match obj.a with
    | some ask_val => book.update_asks ask_val depth
    | none => (book, none)
  match e with
  | some err => (book, some err)
  | none =>
    match obj.b with
    | some bid_val => book.update_bids bid_val depth
    | none => (book, none)

/-- The incremental-update loop of the book branch of
`KrakenWsClient::handle_array`: scan the update objects, applying ask and
bid deltas; when an object carries a checksum, compare it with the book
checksum and on mismatch mark the book corrupt, request an unsubscribe and
stop with an error.  Partial updates persist (the Rust code mutates the
locked book in place). -/
def apply_update_objs (book : BookData) (needs_unsub : Bool) :
    List BookUpdateObj → Nat → BookData × Bool × Option String
  | [], _ => (book, needs_unsub, none)
  | obj :: rest, depth =>
    match apply_update_obj_ab book obj depth with
    | (book', some err) => (book', needs_unsub, some err)
    | (book', none) =>
      match obj.c with
      | none => apply_update_objs book' needs_unsub rest depth
      | some check_val =>
        match parse_u32 check_val with
        | none => (book', needs_unsub, some "checksum value could not parse as u32")
        | some expected_checksum =>
          if book'.checksum ≠ expected_checksum then
            ({ book' with checksum_failed := true }, true, some "checksum mismatch")
          else
            apply_update_objs book' needs_unsub rest depth

/-- The per-pair client state the book branch of `handle_array` touches:
the pair's `BookData` slot in `WsAPIResults` and the pair's
`SubscriptionState` in the subscription tracker. -/
structure ClientBookState where
  book : BookData
  sub : SubscriptionState
deriving DecidableEq

/-- The book branch of `KrakenWsClient::handle_array` for one tracked pair.
The argument list models `array[1 .. len-2]`, the update objects between
the channel id and the trailing channel-name/pair members.  Checks the
subscription, then dispatches on the first object: an `"as"` key means a
snapshot (clear the book, ingest the full ask and bid arrays); an `"a"` or
`"b"` key means an incremental update batch. -/
def handle_book_array (st : ClientBookState) (objs : List BookUpdateObj) (depth : Nat) :
    ClientBookState × Option String :=
  if ¬ st.sub.status.is_subscribed then
    (st, some "unexpected book message, not subscribed")
  else
    match objs with
    | [] => (st, some "expected an object with ask or bid updates")
    | first_obj :: _ =>
      match first_obj.as_snap with
      | some ask_snapshot_val =>
        -- Looks like a snapshot
        let book := st.book.clear
        match book.update_asks ask_snapshot_val depth with
        | (book, some err) => ({ st with book := book }, some err)
        | (book, none) =>
          match first_obj.bs_snap with
          | none => ({ st with book := book }, some "expected a bid snapshot")
          | some bid_snapshot_val =>
            match book.update_bids bid_snapshot_val depth with
            | (book, some err) => ({ st with book := book }, some err)
            | (book, none) => ({ st with book := book }, none)
      | none =>
        if first_obj.a.isSome || first_obj.b.isSome then
          -- Looks like an incremental update
          match apply_update_objs st.book st.sub.needs_unsubscribe objs depth with
          | (book, nu, e) =>
            ({ book := book, sub := { st.sub with needs_unsubscribe := nu } }, e)
        else
          (st, some "update had no usable data")

/-- `KrakenWsClient::update` on `Ok(Message::Text(..))` carrying a book
channel message: `handle_kraken_text` logs any error from `handle_array`
and does not propagate it, so `update` returns `Ok(())` and the stream
continues. -/
def update_on_book_text (st : ClientBookState) (objs : List BookUpdateObj) (depth : Nat) :
    ClientBookState × Except String Unit :=
  ((handle_book_array st objs depth).1, .ok ())

/-- Builder error (`BuilderError::MissingWsToken` is the variant the
websocket config builder can produce). -/
inductive BuilderError where
  | MissingWsToken
deriving DecidableEq, Repr

/-- Configuration for private websockets feeds (`KrakenPrivateWsConfig` in
`src/ws/config.rs`); the derived default has an empty token and
`subscribe_open_orders = false`. -/
structure KrakenPrivateWsConfig where
  /-- Authentication token (get from REST API). -/
  token : String
  /-- If true, subscribe to own orders feed for this account. -/
  subscribe_open_orders : Bool
deriving DecidableEq, Repr

/-- `Default::default()` for `KrakenPrivateWsConfig`. -/
def KrakenPrivateWsConfig.default : KrakenPrivateWsConfig :=
  { token := "", subscribe_open_orders := false }

/-- Configuration for the websocket connection (`KrakenWsConfig` in
`src/ws/config.rs`; the field `private` is named `private_cfg` here because
`private` is a Lean keyword). -/
structure KrakenWsConfig where
  /-- Order books to subscribe to. -/
  subscribe_book : List String
  /-- Depth of order book subscriptions (how many ask/bid entries). -/
  book_depth : Nat
  /-- Public trade streams to subscribe to. -/
  subscribe_trades : List String
  /-- Optional configuration for private feeds. -/
  private_cfg : Option KrakenPrivateWsConfig
deriving DecidableEq, Repr

/-- `Default::default()` for `KrakenWsConfig`: no subscriptions, book depth
10, no private config. -/
def KrakenWsConfig.default : KrakenWsConfig :=
  { subscribe_book := []
    book_depth := 10
    subscribe_trades := []
    private_cfg := none }

/-- Builder for the `KrakenWsConfig` object. -/
structure KrakenWsConfigBuilder where
  config : KrakenWsConfig
deriving DecidableEq, Repr

/-- `KrakenWsConfigBuilder::new` / `Default::default()`. -/
def KrakenWsConfigBuilder.new : KrakenWsConfigBuilder :=
  { config := KrakenWsConfig.default }

/-- `KrakenWsConfigBuilder::subscribe_book`. -/
def KrakenWsConfigBuilder.subscribe_book (b : KrakenWsConfigBuilder)
    (pairs : List String) : KrakenWsConfigBuilder :=
  { b with config := { b.config with subscribe_book := pairs } }

/-- `KrakenWsConfigBuilder::book_depth`: store the requested depth.  (The
source stores the argument unmodified.) -/
def KrakenWsConfigBuilder.book_depth (b : KrakenWsConfigBuilder)
    (book_depth : Nat) : KrakenWsConfigBuilder :=
  { b with config := { b.config with book_depth := book_depth } }

/-- `KrakenWsConfigBuilder::subscribe_trades`. -/
def KrakenWsConfigBuilder.subscribe_trades (b : KrakenWsConfigBuilder)
    (pairs : List String) : KrakenWsConfigBuilder :=
  { b with config := { b.config with subscribe_trades := pairs } }

/-- `KrakenWsConfigBuilder::token`: `get_or_insert_default` the private
config, then set its token. -/
def KrakenWsConfigBuilder.token (b : KrakenWsConfigBuilder) (token : String) :
    KrakenWsConfigBuilder :=
  let p := b.config.private_cfg.getD KrakenPrivateWsConfig.default
  { b with config := { b.config with private_cfg := some { p with token := token } } }

/-- `KrakenWsConfigBuilder::subscribe_open_orders`: `get_or_insert_default`
the private config, then set its `subscribe_open_orders` flag. -/
def KrakenWsConfigBuilder.subscribe_open_orders (b : KrakenWsConfigBuilder)
    (v : Bool) : KrakenWsConfigBuilder :=
  let p := b.config.private_cfg.getD KrakenPrivateWsConfig.default
  { b with
    config := { b.config with private_cfg := some { p with subscribe_open_orders := v } } }

/-- `KrakenWsConfigBuilder::build`: fail with `MissingWsToken` when a
private config exists with an empty token, else return the config. -/
def KrakenWsConfigBuilder.build (b : KrakenWsConfigBuilder) :
    Except BuilderError KrakenWsConfig :=
  match b.config.private_cfg with
  | some p => if p.token = "" then .error .MissingWsToken else .ok b.config
  | none => .ok b.config

/-- A private subscription is requested exactly when the configuration asks
for the open-orders feed.  Modelled from the spec wording "any private
subscription is requested"; used to compare the spec's claim about `build`
with the code's actual condition. -/
def privateSubscriptionRequested (c : KrakenWsConfig) : Bool :=
  match c.private_cfg with
  | some p => p.subscribe_open_orders
  | none => false

/-- A JSON scalar as accessed by `handle_add_order_status`: `as_u64`
succeeds on a non-negative integer number, `as_str` on a string; any other
JSON value is collapsed into `other`. -/
inductive JVal where
  | str (s : String)
  | num (n : Nat)
  | other
deriving DecidableEq, Repr

/-- `serde_json::Value::as_str`. -/
def JVal.as_str : JVal → Option String
  | .str s => some s
  | _ => none

/-- `serde_json::Value::as_u64`. -/
def JVal.as_u64 : JVal → Option Nat
  | .num n => some n
  | _ => none

/-- The fields of an `addOrderStatus` message object that
`handle_add_order_status` reads (`none` models an absent key). -/
structure AddOrderStatusMsg where
  reqid : Option JVal
  status : Option JVal
  txid : Option JVal
  errorMessage : Option JVal
deriving DecidableEq

/-- Generic association-list lookup for the pending-reply maps (model of
`HashMap<u64, oneshot::Sender<..>>`). -/
def lookupReq {σ : Type} (k : Nat) : List (Nat × σ) → Option σ
  | [] => none
  | (k', v) :: rest => if k = k' then some v else lookupReq k rest

/-- Generic association-list removal (model of `HashMap::remove`). -/
def eraseReq {σ : Type} (k : Nat) : List (Nat × σ) → List (Nat × σ)
  | [] => []
  | (k', v) :: rest => if k = k' then rest else (k', v) :: eraseReq k rest

/-- `KrakenWsClient::handle_add_order_status`.  Input: the pending
`add_order_result_senders` map and the message fields.  Output: the new
pending map, the reply delivered to the removed sender (if any; the Rust
code sends it over the oneshot channel and drops the sender), and the
handler's error, if any. -/
def handle_add_order_status {σ : Type} (senders : List (Nat × σ))
    (map : AddOrderStatusMsg) :
    List (Nat × σ) × Option (σ × Except String String) × Option String :=
  match map.reqid with
  | none => (senders, none, some "missing req_id field")
  | some rv =>
    match rv.as_u64 with
    | none => (senders, none, some "reqid wasnt an integer")
    | some req_id =>
      match lookupReq req_id senders with
      | none => (senders, none, some "unknown add_order reqid")
      | some sender =>
        let senders := eraseReq req_id senders
        match map.status with
        | none => (senders, none, some "missing status field")
        | some sv =>
          match sv.as_str with
          | none => (senders, none, some "status wasnt a string")
          | some status =>
            if status = "ok" then
              -- tx_id is omitted when validate=true
              match map.txid with
              | none => (senders, some (sender, .ok ""), none)
              | some tv =>
                match tv.as_str with
                | none => (senders, none, some "txid wasnt a string")
                | some tx_id => (senders, some (sender, .ok tx_id), none)
            else if status = "error" then
              match map.errorMessage with
              | none => (senders, none, some "missing errorMessage field")
              | some ev =>
                match ev.as_str with
                | none => (senders, none, some "errorMessage wasnt a string")
                | some err_msg => (senders, some (sender, .error err_msg), none)
            else
              (senders, some (sender, .error ("unexpected status: " ++ status)),
                some "unexpected status")

/-- The fields of `AddOrderRequest` that `KrakenWsClient::add_order`
writes before serializing (`event`, `reqid`, `token`); the remaining order
fields (ordertype, buy/sell, volume, pair, price, oflags, validate) are
set by the caller, never read by the connection logic, and collapsed into
`descr` here. -/
structure AddOrderRequest where
  event : String
  token : String
  reqid : Option Nat
  descr : String
deriving DecidableEq, Repr

/-- An outbound message written to the websocket sink by the order
methods. -/
inductive WsOutMsg where
  | addOrder (order : AddOrderRequest)
  | cancelOrder (token : String) (txid : String) (reqid : Nat)
  | cancelAll (token : String) (reqid : Nat)
deriving DecidableEq

/-- The parts of `KrakenWsClient` state that the order-entry methods touch.
The sink is modelled as the list of messages written to it (transport
failures, which drop the sender and propagate the error, are not modelled;
no property below concerns them).  `σa`, `σc`, `σl` are the types of the
pending oneshot reply senders. -/
structure WsClientState (σa σc σl : Type) where
  config : KrakenWsConfig
  add_order_result_senders : List (Nat × σa)
  cancel_order_result_senders : List (Nat × σc)
  cancel_all_orders_result_senders : List (Nat × σl)
  client_req_id : Nat
  sent : List WsOutMsg

/-- `KrakenWsClient::add_order`.  Without a private config: log, drop the
result sender, write nothing, and return `Ok(())`.  Otherwise stamp the
order with a fresh request id and the token, store the sender, and send. -/
def add_order {σa σc σl : Type} (st : WsClientState σa σc σl)
    (order : AddOrderRequest) (result_sender : σa) :
    WsClientState σa σc σl × Except String Unit :=
  match st.config.private_cfg with
  | none =>
    -- Drop the result_sender and do not signal an error to the websocket
    (st, .ok ())
  | some private_config =>
    let client_req_id := st.client_req_id
    let st := { st with client_req_id := (st.client_req_id + 1) % 2 ^ 64 }
    let order := { order with
      event := "addOrder"
      reqid := some client_req_id
      token := private_config.token }
    let st := { st with
      add_order_result_senders :=
        st.add_order_result_senders ++ [(client_req_id, result_sender)]
      sent := st.sent ++ [.addOrder order] }
    (st, .ok ())

/-- `KrakenWsClient::cancel_order`.  Without a private config: log, drop
the result sender, write nothing, and return `Ok(())`. -/
def cancel_order {σa σc σl : Type} (st : WsClientState σa σc σl)
    (txid : String) (result_sender : σc) :
    WsClientState σa σc σl × Except String Unit :=
  match st.config.private_cfg with
  | none => (st, .ok ())
  | some private_config =>
    let client_req_id := st.client_req_id
    let st := { st with client_req_id := (st.client_req_id + 1) % 2 ^ 64 }
    let st := { st with
      cancel_order_result_senders :=
        st.cancel_order_result_senders ++ [(client_req_id, result_sender)]
      sent := st.sent ++ [.cancelOrder private_config.token txid client_req_id] }
    (st, .ok ())

/-- `KrakenWsClient::cancel_all_orders`.  Without a private config: log,
drop the result sender, write nothing, and return `Ok(())`. -/
def cancel_all_orders {σa σc σl : Type} (st : WsClientState σa σc σl)
    (result_sender : σl) :
    WsClientState σa σc σl × Except String Unit :=
  match st.config.private_cfg with
  | none => (st, .ok ())
  | some private_config =>
    let client_req_id := st.client_req_id
    let st := { st with client_req_id := (st.client_req_id + 1) % 2 ^ 64 }
    let st := { st with
      cancel_all_orders_result_senders :=
        st.cancel_all_orders_result_senders ++ [(client_req_id, result_sender)]
      sent := st.sent ++ [.cancelAll private_config.token client_req_id] }
    (st, .ok ())

/-- A concrete unauthenticated client state, used to instantiate theorems
about the order-entry methods. -/
def c10_state : WsClientState Nat Nat Nat :=
  { config := KrakenWsConfig.default
    add_order_result_senders := []
    cancel_order_result_senders := []
    cancel_all_orders_result_senders := []
    client_req_id := 0
    sent := [] }

/-- A concrete client state holding a stale corrupt book, used to
instantiate the snapshot theorem. -/
def c5_st : ClientBookState :=
  ⟨⟨[((9 : Rat), ⟨1, 0, "9", "1"⟩)], [((8 : Rat), ⟨1, 0, "8", "1"⟩)], true⟩,
    SubscriptionState.new .subscribed⟩

/-- A concrete snapshot frame object: one ask level and one bid level. -/
def c5_obj : BookUpdateObj :=
  ⟨some [("1.5", "2", "0")], some [("1.0", "3", "0")], none, none, none⟩

/-- The parsed ask levels of `c5_obj`. -/
def c5_las : List (Rat × BookEntry) := [(mkRat 3 2, ⟨2, 0, "1.5", "2"⟩)]

/-- The parsed bid levels of `c5_obj`. -/
def c5_lbs : List (Rat × BookEntry) := [((1 : Rat), ⟨3, 0, "1.0", "3"⟩)]

/-!  ## Helper lemmas  -/

theorem drop_findIdx_eq_dropWhile {α : Type} (p : α → Bool) :
    ∀ l : List α, l.drop (l.findIdx p) = l.dropWhile (fun x => !(p x)) := by
  intro l
  induction l with
  | nil => rfl
  | cons c t ih =>
    by_cases h : p c
    · simp [List.findIdx_cons, List.dropWhile_cons, h]
    · simp only [Bool.not_eq_true] at h
      simp [List.findIdx_cons, List.dropWhile_cons, h, ih]

/-!  ## The claims  -/

/-- C4: the checksum normalization `format_str_for_hash` removes every
decimal point and then strips leading zeros (so a pure-zero numeral becomes
the empty string); hence `normalize "0.001" = normalize "00.001" = "1"`,
while `normalize "0.001" ≠ normalize "0000.001000"` because trailing zeros
are significant. -/
theorem C4_format_str_for_hash :
    (∀ s : String, format_str_for_hash s =
      String.mk ((s.data.filter (fun x => x != '.')).dropWhile (fun x => x == '0'))) ∧
    (∀ s : String, (∀ c ∈ s.data, c = '0' ∨ c = '.') → format_str_for_hash s = "") ∧
    format_str_for_hash "0.001" = "1" ∧
    format_str_for_hash "00.001" = "1" ∧
    format_str_for_hash "0000.001000" = "1000" ∧
    format_str_for_hash "0.001" ≠ format_str_for_hash "0000.001000" := by
  have hfun : (fun x : Char => !(x != '0')) = (fun x : Char => x == '0') := by
    funext x
    simp [bne]
  have hchar : ∀ s : String, format_str_for_hash s =
      String.mk ((s.data.filter (fun x => x != '.')).dropWhile (fun x => x == '0')) := by
    intro s
    have hdef : format_str_for_hash s =
        String.mk ((s.data.filter (fun x => x != '.')).drop
          ((s.data.filter (fun x => x != '.')).findIdx (fun x => x != '0'))) := rfl
    rw [hdef, drop_findIdx_eq_dropWhile, hfun]
  refine ⟨hchar, ?_, by decide, by decide, by decide, by decide⟩
  intro s hs
  rw [hchar s]
  have : (s.data.filter (fun x => x != '.')).dropWhile (fun x => x == '0') = [] := by
    rw [List.dropWhile_eq_nil_iff]
    intro x hx
    have hmem := List.mem_of_mem_filter hx
    have hne := List.of_mem_filter hx
    rcases hs x hmem with h0 | hdot
    · simp [h0]
    · rw [hdot] at hne; simp at hne
  rw [this]

/-- C4 witness: a concrete pure-zero numeral normalizes to the empty
string. -/
theorem C4_format_str_for_hash_witness :
    (∀ c ∈ ("0.00" : String).data, c = '0' ∨ c = '.') ∧
    format_str_for_hash "0.00" = "" :=
  ⟨by decide, C4_format_str_for_hash.2.1 "0.00" (by decide)⟩

/-- C7: the claim (and the builder's own doc comment) says the book depth
is clamped to the interval `[10, 1000]`, but the code stores the requested
value unmodified: requesting depth 5 yields a built config with depth 5,
which is below the claimed lower bound 10.  The default is 10 as claimed. -/
theorem C7_book_depth_not_clamped :
    ((KrakenWsConfigBuilder.new.book_depth 5).build.map (fun c => c.book_depth)
      = .ok 5) ∧
    ¬ (10 ≤ 5) ∧
    KrakenWsConfig.default.book_depth = 10 :=
  ⟨rfl, by decide, rfl⟩

/-- C8 counterexample: `subscribe_open_orders(false)` materializes the
private config with an empty token without requesting any private
subscription, yet `build` returns `MissingWsToken` — refuting the claimed
"only if a private subscription is requested" direction. -/
theorem C8_counterexample :
    (KrakenWsConfigBuilder.new.subscribe_open_orders false).build
      = .error .MissingWsToken ∧
    privateSubscriptionRequested
      (KrakenWsConfigBuilder.new.subscribe_open_orders false).config = false :=
  ⟨rfl, rfl⟩

/-- C8 (amended): `build` returns the `MissingWsToken` error iff the
private configuration section exists (i.e. `token` or
`subscribe_open_orders` was called) with an empty token — whether or not a
private subscription was actually requested; otherwise `build` returns the
configuration unchanged. -/
theorem C8_build_missing_token :
    ∀ b : KrakenWsConfigBuilder,
      (b.build = .error .MissingWsToken ↔
        ∃ p, b.config.private_cfg = some p ∧ p.token = "") ∧
      (∀ c, b.build = .ok c → c = b.config) := by
  intro b
  unfold KrakenWsConfigBuilder.build
  rcases hp : b.config.private_cfg with _ | p
  · constructor
    · constructor
      · intro h; cases h
      · rintro ⟨p, hp2, _⟩; cases hp2
    · intro c hc; cases hc; rfl
  · by_cases ht : p.token = ""
    · simp only [ht, if_pos rfl]
      constructor
      · constructor
        · intro _; exact ⟨p, rfl, ht⟩
        · intro _; rfl
      · intro c hc; cases hc
    · simp only [if_neg ht]
      constructor
      · constructor
        · intro h; cases h
        · rintro ⟨p', hp2, ht'⟩
          cases hp2; exact absurd ht' ht
      · intro c hc; cases hc; rfl

/-- C8 witness: with a non-empty token, `build` succeeds and returns the
configuration unchanged. -/
theorem C8_build_missing_token_witness :
    ((KrakenWsConfigBuilder.new.token "tok").build
      = .ok (KrakenWsConfigBuilder.new.token "tok").config) ∧
    (KrakenWsConfigBuilder.new.token "tok").config
      = (KrakenWsConfigBuilder.new.token "tok").config :=
  ⟨rfl, (C8_build_missing_token (KrakenWsConfigBuilder.new.token "tok")).2
    (KrakenWsConfigBuilder.new.token "tok").config rfl⟩

/-- C10: when the client was configured without private credentials, each
of `add_order`, `cancel_order` and `cancel_all_orders` returns `Ok(())`,
writes nothing to the socket, leaves every pending-reply map, the request
counter and all other client state unchanged, and does not retain the
reply sender. -/
theorem C10_no_private_noop {σa σc σl : Type} :
    ∀ (st : WsClientState σa σc σl) (order : AddOrderRequest) (txid : String)
      (sa : σa) (sc : σc) (sl : σl),
      st.config.private_cfg = none →
      add_order st order sa = (st, .ok ()) ∧
      cancel_order st txid sc = (st, .ok ()) ∧
      cancel_all_orders st sl = (st, .ok ()) := by
  intro st order txid sa sc sl h
  unfold add_order cancel_order cancel_all_orders
  rw [h]
  exact ⟨rfl, rfl, rfl⟩

/-- C10 witness: a concrete unauthenticated client state where all three
order methods are inert. -/
theorem C10_no_private_noop_witness :
    c10_state.config.private_cfg = none ∧
    add_order c10_state ⟨"", "", none, ""⟩ 7 = (c10_state, .ok ()) ∧
    cancel_order c10_state "OTX" 8 = (c10_state, .ok ()) ∧
    cancel_all_orders c10_state 9 = (c10_state, .ok ()) := by
  have h := C10_no_private_noop c10_state ⟨"", "", none, ""⟩ "OTX" 7 8 9 rfl
  exact ⟨rfl, h.1, h.2.1, h.2.2⟩

theorem accepts_all_cons (s : SubscriptionState) (n : Nat) (l : List Nat) :
    accepts_all s (n :: l) =
      match s.check_sequence_number n with
      | (s', .ok _) => accepts_all s' l
      | (_, .error _) => false := rfl

theorem accepts_all_iff_range (l : List Nat) :
    ∀ (s : SubscriptionState) (m : Nat),
      s.sequence_number = some m → m + l.length < 2 ^ 64 →
      (accepts_all s l = true ↔ l = List.range' (m + 1) l.length) := by
  induction l with
  | nil => intro s m _ _; simp [accepts_all]
  | cons n rest ih =>
    intro s m hseq hbound
    have hlen : m + 1 + rest.length < 2 ^ 64 := by
      rw [List.length_cons] at hbound; omega
    have hm1 : (m + 1) % 2 ^ 64 = m + 1 := Nat.mod_eq_of_lt (by omega)
    have hcheck : ∀ k : Nat, s.check_sequence_number k =
        (if m + 1 ≠ k then
          ({ s with needs_unsubscribe := true }, .error "sequence number mismatch")
        else ({ s with sequence_number := some (m + 1) }, .ok ())) := by
      intro k
      simp only [SubscriptionState.check_sequence_number, hseq, hm1]
    by_cases hn : n = m + 1
    · subst hn
      rw [accepts_all_cons, hcheck, if_neg (fun h => h rfl)]
      show accepts_all { s with sequence_number := some (m + 1) } rest = true ↔ _
      rw [ih _ (m + 1) rfl hlen]
      simp [List.range'_succ]
    · rw [accepts_all_cons, hcheck, if_pos (fun h => hn h.symm)]
      show (false = true) ↔ _
      simp only [Bool.false_eq_true, false_iff]
      intro hcontra
      rw [List.length_cons, List.range'_succ] at hcontra
      injection hcontra with h1 _
      exact hn h1

/-- C3: after a successful subscribe the sequence counter starts at 0; a
stream of openOrders messages is accepted in full iff its sequence numbers
are exactly 1, 2, 3, ... (each accepted message carries exactly
`last_seen + 1`); and any message whose number is not `last_seen + 1` sets
`needs_unsubscribe` and makes `check_sequence_number` fail.  (The length
bound reflects `u64` wrap-around at `2 ^ 64`, which no real stream
reaches.) -/
theorem C3_sequence_numbers :
    (SubscriptionState.new .subscribed).sequence_number = some 0 ∧
    (∀ l : List Nat, l.length < 2 ^ 64 →
      (accepts_all (SubscriptionState.new .subscribed) l = true ↔
        l = List.range' 1 l.length)) ∧
    (∀ (s : SubscriptionState) (m n : Nat), s.sequence_number = some m →
      n ≠ (m + 1) % 2 ^ 64 →
      (s.check_sequence_number n).1.needs_unsubscribe = true ∧
      (s.check_sequence_number n).2 = .error "sequence number mismatch") := by
  refine ⟨rfl, ?_, ?_⟩
  · intro l hl
    exact accepts_all_iff_range l (SubscriptionState.new .subscribed) 0 rfl (by omega)
  · intro s m n hseq hne
    simp only [SubscriptionState.check_sequence_number, hseq]
    rw [if_pos (fun h => hne h.symm)]
    exact ⟨rfl, rfl⟩

/-- C3 witness: the stream 1, 2, 3 is accepted in full from a fresh
subscribed state, and the out-of-order number 5 after it sets the
resubscribe flag and fails. -/
theorem C3_sequence_numbers_witness :
    (([1, 2, 3] : List Nat).length < 2 ^ 64 ∧
      (accepts_all (SubscriptionState.new .subscribed) [1, 2, 3] = true ↔
        [1, 2, 3] = List.range' 1 3)) ∧
    (({ status := .subscribed, needs_unsubscribe := false,
        sequence_number := some 3 } : SubscriptionState).sequence_number = some 3 ∧
      (5 : Nat) ≠ (3 + 1) % 2 ^ 64 ∧
      (({ status := .subscribed, needs_unsubscribe := false,
          sequence_number := some 3 } : SubscriptionState).check_sequence_number
            5).1.needs_unsubscribe = true ∧
      (({ status := .subscribed, needs_unsubscribe := false,
          sequence_number := some 3 } : SubscriptionState).check_sequence_number
            5).2 = .error "sequence number mismatch") :=
  ⟨⟨by decide, C3_sequence_numbers.2.1 [1, 2, 3] (by decide)⟩,
   rfl, by decide,
   C3_sequence_numbers.2.2 _ 3 5 rfl (by decide)⟩

theorem lookupReq_eq_none_of_not_mem {σ : Type} (k : Nat) :
    ∀ l : List (Nat × σ), k ∉ l.map Prod.fst → lookupReq k l = none := by
  intro l
  induction l with
  | nil => intro _; rfl
  | cons h t ih =>
    intro hk
    simp only [List.map_cons, List.mem_cons] at hk
    push_neg at hk
    simp only [lookupReq, if_neg hk.1]
    exact ih hk.2

theorem mem_keys_eraseReq {σ : Type} (k x : Nat) :
    ∀ l : List (Nat × σ), x ∈ (eraseReq k l).map Prod.fst → x ∈ l.map Prod.fst := by
  intro l
  induction l with
  | nil => intro h; exact h
  | cons h t ih =>
    by_cases hk : k = h.1
    · simp only [eraseReq, if_pos hk, List.map_cons, List.mem_cons]
      intro hx; exact Or.inr hx
    · simp only [eraseReq, if_neg hk, List.map_cons, List.mem_cons]
      rintro (hx | hx)
      · exact Or.inl hx
      · exact Or.inr (ih hx)

theorem lookupReq_eraseReq_self {σ : Type} (k : Nat) :
    ∀ l : List (Nat × σ), (l.map Prod.fst).Nodup → lookupReq k (eraseReq k l) = none := by
  intro l
  induction l with
  | nil => intro _; rfl
  | cons h t ih =>
    intro hnd
    rw [List.map_cons, List.nodup_cons] at hnd
    by_cases hk : k = h.1
    · rw [eraseReq, if_pos hk]
      apply lookupReq_eq_none_of_not_mem
      rw [hk]
      exact hnd.1
    · rw [eraseReq, if_neg hk, lookupReq, if_neg hk]
      exact ih hnd.2

/-- C9: for an `addOrderStatus` message whose reqid matches a pending
`add_order` reply sender: the sender is always removed from the pending map
(so a second message under the same id finds no sender and at most one
reply is delivered); status "ok" delivers `Ok(txid)`, with the empty string
when `txid` is absent (validate-only); status "error" delivers
`Err(errorMessage)`. -/
theorem C9_add_order_status {σ : Type} :
    ∀ (senders : List (Nat × σ)) (rid : Nat) (s : σ) (msg : AddOrderStatusMsg),
      (senders.map Prod.fst).Nodup →
      lookupReq rid senders = some s →
      msg.reqid = some (.num rid) →
      (handle_add_order_status senders msg).1 = eraseReq rid senders ∧
      lookupReq rid (handle_add_order_status senders msg).1 = none ∧
      (msg.status = some (.str "ok") → msg.txid = none →
        (handle_add_order_status senders msg).2.1 = some (s, .ok "")) ∧
      (∀ t, msg.status = some (.str "ok") → msg.txid = some (.str t) →
        (handle_add_order_status senders msg).2.1 = some (s, .ok t)) ∧
      (∀ e, msg.status = some (.str "error") → msg.errorMessage = some (.str e) →
        (handle_add_order_status senders msg).2.1 = some (s, .error e)) ∧
      handle_add_order_status (eraseReq rid senders) msg =
        (eraseReq rid senders, none, some "unknown add_order reqid") := by
  intro senders rid s msg hnd hlook hreq
  have hfst : (handle_add_order_status senders msg).1 = eraseReq rid senders := by
    simp only [handle_add_order_status, hreq, JVal.as_u64, hlook]
    rcases msg.status with _ | sv
    · rfl
    · rcases sv with ts | tn | _
      · by_cases hok : ts = "ok"
        · simp only [JVal.as_str, hok, if_pos rfl]
          rcases msg.txid with _ | tv
          · rfl
          · rcases tv with _ | _ | _ <;> rfl
        · by_cases herr : ts = "error"
          · simp only [JVal.as_str, if_neg hok, herr, if_pos rfl]
            rcases msg.errorMessage with _ | ev
            · rfl
            · rcases ev with _ | _ | _ <;> rfl
          · simp only [JVal.as_str, if_neg hok, if_neg herr]
      · rfl
      · rfl
  refine ⟨hfst, ?_, ?_, ?_, ?_, ?_⟩
  · rw [hfst]
    exact lookupReq_eraseReq_self rid senders hnd
  · intro hok htx
    simp [handle_add_order_status, hreq, JVal.as_u64, hlook, hok, htx, JVal.as_str]
  · intro t hok htx
    simp [handle_add_order_status, hreq, JVal.as_u64, hlook, hok, htx, JVal.as_str]
  · intro e herr hmsg
    simp [handle_add_order_status, hreq, JVal.as_u64, hlook, herr, hmsg, JVal.as_str]
  · have : lookupReq rid (eraseReq rid senders) = none :=
      lookupReq_eraseReq_self rid senders hnd
    simp only [handle_add_order_status, hreq, JVal.as_u64, this]

/-- C9 witness: a concrete pending map with reqid 4; an ok status with a
txid delivers `Ok` of that txid to sender 11 and removes it, and replaying
the message finds no sender. -/
theorem C9_add_order_status_witness :
    (([(4, 11), (6, 12)] : List (Nat × Nat)).map Prod.fst).Nodup ∧
    lookupReq 4 [(4, 11), (6, 12)] = some 11 ∧
    (⟨some (.num 4), some (.str "ok"), some (.str "TX1"), none⟩ :
      AddOrderStatusMsg).reqid = some (.num 4) ∧
    (handle_add_order_status [(4, 11), (6, 12)]
      ⟨some (.num 4), some (.str "ok"), some (.str "TX1"), none⟩).2.1
        = some (11, .ok "TX1") ∧
    handle_add_order_status (eraseReq 4 [(4, 11), (6, 12)])
      (⟨some (.num 4), some (.str "ok"), some (.str "TX1"), none⟩ : AddOrderStatusMsg) =
      (eraseReq 4 [(4, 11), (6, 12)], none, some "unknown add_order reqid") := by
  have h := C9_add_order_status [(4, 11), (6, 12)] 4 11
    ⟨some (.num 4), some (.str "ok"), some (.str "TX1"), none⟩
    (by decide) (by decide) rfl
  exact ⟨by decide, by decide, rfl, h.2.2.2.1 "TX1" rfl rfl, h.2.2.2.2.2⟩

theorem mem_insertEntry (k : Rat) (v : BookEntry) :
    ∀ (l : Side) (x : Rat × BookEntry), x ∈ insertEntry k v l → x = (k, v) ∨ x ∈ l := by
  intro l
  induction l with
  | nil =>
    intro x hx
    simp only [insertEntry, List.mem_singleton] at hx
    exact Or.inl hx
  | cons hd tl ih =>
    intro x hx
    simp only [insertEntry] at hx
    by_cases h1 : k < hd.1
    · rw [if_pos h1] at hx
      rcases List.mem_cons.mp hx with hx | hx
      · exact Or.inl hx
      · exact Or.inr hx
    · rw [if_neg h1] at hx
      by_cases h2 : k = hd.1
      · rw [if_pos h2] at hx
        rcases List.mem_cons.mp hx with hx | hx
        · exact Or.inl hx
        · exact Or.inr (List.mem_cons_of_mem _ hx)
      · rw [if_neg h2] at hx
        rcases List.mem_cons.mp hx with hx | hx
        · exact Or.inr (List.mem_cons.mpr (Or.inl hx))
        · rcases ih x hx with h | h
          · exact Or.inl h
          · exact Or.inr (List.mem_cons_of_mem _ h)

theorem insertEntry_sorted (k : Rat) (v : BookEntry) :
    ∀ l : Side, SortedSide l → SortedSide (insertEntry k v l) := by
  intro l
  induction l with
  | nil => intro _; exact List.pairwise_singleton _ _
  | cons hd tl ih =>
    intro hs
    rw [SortedSide, List.pairwise_cons] at hs
    obtain ⟨hhd, htl⟩ := hs
    simp only [insertEntry]
    by_cases h1 : k < hd.1
    · rw [if_pos h1]
      rw [SortedSide, List.pairwise_cons]
      refine ⟨?_, List.pairwise_cons.mpr ⟨hhd, htl⟩⟩
      intro y hy
      rcases List.mem_cons.mp hy with hy | hy
      · rw [hy]; exact h1
      · exact lt_trans h1 (hhd y hy)
    · rw [if_neg h1]
      by_cases h2 : k = hd.1
      · rw [if_pos h2]
        rw [SortedSide, List.pairwise_cons]
        exact ⟨fun y hy => h2 ▸ hhd y hy, htl⟩
      · rw [if_neg h2]
        have hgt : hd.1 < k := lt_of_le_of_ne (le_of_not_lt h1) (fun h => h2 h.symm)
        rw [SortedSide, List.pairwise_cons]
        refine ⟨?_, ih htl⟩
        intro y hy
        rcases mem_insertEntry k v tl y hy with hy2 | hy2
        · rw [hy2]; exact hgt
        · exact hhd y hy2

theorem eraseKey_sublist (k : Rat) : ∀ l : Side, (eraseKey k l).Sublist l := by
  intro l
  induction l with
  | nil => exact List.Sublist.refl _
  | cons hd tl ih =>
    simp only [eraseKey]
    by_cases h : k = hd.1
    · rw [if_pos h]
      exact List.sublist_cons_self _ _
    · rw [if_neg h]
      exact List.Sublist.cons₂ _ ih

theorem eraseKey_sorted (k : Rat) (l : Side) (h : SortedSide l) :
    SortedSide (eraseKey k l) :=
  List.Pairwise.sublist (eraseKey_sublist k l) h

theorem update_internal_sorted (data : List RawLevel) :
    ∀ side : Side, SortedSide side → SortedSide (update_internal side data).1 := by
  induction data with
  | nil => intro side h; exact h
  | cons t rest ih =>
    intro side h
    rcases hp : parseDecimal t.1 with _ | p
    · simp only [update_internal, hp]; exact h
    · rcases hv : parseDecimal t.2.1 with _ | v
      · simp only [update_internal, hp, hv]; exact h
      · rcases ht : parseDecimal t.2.2 with _ | ti
        · simp only [update_internal, hp, hv, ht]; exact h
        · simp only [update_internal, hp, hv, ht]
          by_cases hz : v = 0
          · rw [if_pos hz]
            exact ih _ (eraseKey_sorted p side h)
          · rw [if_neg hz]
            exact ih _ (insertEntry_sorted p _ side h)

theorem sortedSide_keys_nodup {l : Side} (h : SortedSide l) :
    (l.map Prod.fst).Nodup := by
  have hp : (l.map Prod.fst).Pairwise (· < ·) :=
    List.Pairwise.map Prod.fst (fun a b hab => hab) h
  exact hp.imp ne_of_lt

theorem lookupKey_eq_none_of_not_mem (k : Rat) :
    ∀ l : Side, k ∉ l.map Prod.fst → lookupKey k l = none := by
  intro l
  induction l with
  | nil => intro _; rfl
  | cons hd tl ih =>
    intro hk
    simp only [List.map_cons, List.mem_cons] at hk
    push_neg at hk
    simp only [lookupKey, if_neg hk.1]
    exact ih hk.2

theorem lookupKey_eraseKey_self (k : Rat) :
    ∀ l : Side, (l.map Prod.fst).Nodup → lookupKey k (eraseKey k l) = none := by
  intro l
  induction l with
  | nil => intro _; rfl
  | cons hd tl ih =>
    intro hnd
    rw [List.map_cons, List.nodup_cons] at hnd
    by_cases hk : k = hd.1
    · rw [eraseKey, if_pos hk]
      apply lookupKey_eq_none_of_not_mem
      rw [hk]
      exact hnd.1
    · rw [eraseKey, if_neg hk, lookupKey, if_neg hk]
      exact ih hnd.2

theorem lookupKey_insertEntry_self (k : Rat) (v : BookEntry) :
    ∀ l : Side, lookupKey k (insertEntry k v l) = some v := by
  intro l
  induction l with
  | nil => simp [insertEntry, lookupKey]
  | cons hd tl ih =>
    simp only [insertEntry]
    by_cases h1 : k < hd.1
    · rw [if_pos h1, lookupKey, if_pos rfl]
    · rw [if_neg h1]
      by_cases h2 : k = hd.1
      · rw [if_pos h2, lookupKey, if_pos rfl]
      · rw [if_neg h2, lookupKey, if_neg h2]
        exact ih

/-- C6: for each price-level tuple of an applied update, processing is
sequential (the tuple transforms the side before the remaining tuples are
applied); a tuple whose volume parses to zero removes its price level
(absent afterwards); any other tuple inserts or replaces the level with the
parsed volume and timestamp while keeping the original price and volume
digit strings verbatim. -/
theorem C6_level_update :
    ∀ (m : Side) (ps vs ts : String) (rest : List RawLevel) (p v ti : Rat),
      SortedSide m →
      parseDecimal ps = some p →
      parseDecimal vs = some v →
      parseDecimal ts = some ti →
      (update_internal m ((ps, vs, ts) :: rest) =
        update_internal
          (if v = 0 then eraseKey p m else insertEntry p ⟨v, ti, ps, vs⟩ m) rest) ∧
      (v = 0 → lookupKey p (eraseKey p m) = none) ∧
      (v ≠ 0 → lookupKey p (insertEntry p ⟨v, ti, ps, vs⟩ m) =
        some ⟨v, ti, ps, vs⟩) := by
  intro m ps vs ts rest p v ti hs hp hv ht
  refine ⟨?_, ?_, ?_⟩
  · simp only [update_internal, hp, hv, ht]
  · intro _
    exact lookupKey_eraseKey_self p m (sortedSide_keys_nodup hs)
  · intro _
    exact lookupKey_insertEntry_self p _ m

/-- C6 witness: on the one-level side at price 1, the tuple
`("1", "0.0", "7")` parses to volume zero and removes price 1, while the
tuple `("2", "5", "7")` inserts price 2 with the digit strings retained. -/
theorem C6_level_update_witness :
    (SortedSide [((1 : Rat), ⟨1, 0, "1", "1"⟩)] ∧
      parseDecimal "1" = some 1 ∧
      parseDecimal "0.0" = some 0 ∧
      parseDecimal "7" = some 7 ∧
      lookupKey 1 (eraseKey 1 [((1 : Rat), ⟨1, 0, "1", "1"⟩)]) = none) ∧
    (parseDecimal "2" = some 2 ∧
      parseDecimal "5" = some 5 ∧
      lookupKey 2 (insertEntry 2 ⟨5, 7, "2", "5"⟩ [((1 : Rat), ⟨1, 0, "1", "1"⟩)]) =
        some ⟨5, 7, "2", "5"⟩) :=
  ⟨⟨by decide, by decide, by decide, by decide,
    (C6_level_update [((1 : Rat), ⟨1, 0, "1", "1"⟩)] "1" "0.0" "7" [] 1 0 7
      (by decide) (by decide) (by decide) (by decide)).2.1 rfl⟩,
   by decide, by decide,
   (C6_level_update [((1 : Rat), ⟨1, 0, "1", "1"⟩)] "2" "5" "7" [] 2 5 7
      (by decide) (by decide) (by decide) (by decide)).2.2 (by decide)⟩

/-- C1: after a successful `update_asks` (resp. `update_bids`) with depth
bound `depth`, the ask (resp. bid) side holds at most `depth` entries, and
the retained entries are a best-priced selection: the kept asks form a
prefix of the fully updated ascending side, every kept ask priced strictly
below every discarded one, and the kept bids form a suffix, every kept bid
priced strictly above every discarded one. -/
theorem C1_depth_truncation :
    ∀ (b : BookData) (data : List RawLevel) (depth : Nat) (b' : BookData),
      (SortedSide b.ask → b.update_asks data depth = (b', none) →
        b'.ask.length ≤ depth ∧
        ∃ rest, (update_internal b.ask data).1 = b'.ask ++ rest ∧
          ∀ x ∈ b'.ask, ∀ y ∈ rest, x.1 < y.1) ∧
      (SortedSide b.bid → b.update_bids data depth = (b', none) →
        b'.bid.length ≤ depth ∧
        ∃ pre, (update_internal b.bid data).1 = pre ++ b'.bid ∧
          ∀ y ∈ pre, ∀ x ∈ b'.bid, y.1 < x.1) := by
  intro b data depth b'
  constructor
  · intro hs hupd
    rcases hu : update_internal b.ask data with ⟨ask', e⟩
    have hsorted : SortedSide ask' := by
      have h := update_internal_sorted data b.ask hs
      rw [hu] at h; exact h
    cases e with
    | some err =>
      have heq : b.update_asks data depth = ({ b with ask := ask' }, some err) := by
        unfold BookData.update_asks; rw [hu]
      rw [heq] at hupd
      simp at hupd
    | none =>
      have heq : b.update_asks data depth =
          ({ b with ask := if ask'.length > depth then ask'.take depth else ask' },
            none) := by
        unfold BookData.update_asks; rw [hu]
      rw [heq] at hupd
      injection hupd with h1 _
      subst h1
      dsimp only
      by_cases htr : ask'.length > depth
      · simp only [if_pos htr]
        refine ⟨by rw [List.length_take]; omega, ask'.drop depth, ?_, ?_⟩
        · exact (List.take_append_drop depth ask').symm
        · have hsp := hsorted
          rw [← List.take_append_drop depth ask'] at hsp
          exact (List.pairwise_append.mp hsp).2.2
      · simp only [if_neg htr]
        refine ⟨by omega, [], by rw [List.append_nil], ?_⟩
        intro x _ y hy
        exact absurd hy (List.not_mem_nil y)
  · intro hs hupd
    rcases hu : update_internal b.bid data with ⟨bid', e⟩
    have hsorted : SortedSide bid' := by
      have h := update_internal_sorted data b.bid hs
      rw [hu] at h; exact h
    cases e with
    | some err =>
      have heq : b.update_bids data depth = ({ b with bid := bid' }, some err) := by
        unfold BookData.update_bids; rw [hu]
      rw [heq] at hupd
      simp at hupd
    | none =>
      have heq : b.update_bids data depth =
          ({ b with bid :=
              if bid'.length > depth then bid'.drop (bid'.length - depth) else bid' },
            none) := by
        unfold BookData.update_bids; rw [hu]
      rw [heq] at hupd
      injection hupd with h1 _
      subst h1
      dsimp only
      by_cases htr : bid'.length > depth
      · simp only [if_pos htr]
        refine ⟨by rw [List.length_drop]; omega, bid'.take (bid'.length - depth), ?_, ?_⟩
        · exact (List.take_append_drop (bid'.length - depth) bid').symm
        · have hsp := hsorted
          rw [← List.take_append_drop (bid'.length - depth) bid'] at hsp
          exact (List.pairwise_append.mp hsp).2.2
      · simp only [if_neg htr]
        refine ⟨by omega, [], by rw [List.nil_append], ?_⟩
        intro y hy
        exact absurd hy (List.not_mem_nil y)

/-- C1 witness: an empty book receiving three price levels at depth 2 keeps
the two lowest-priced asks (a prefix) and the two highest-priced bids (a
suffix). -/
theorem C1_depth_truncation_witness :
    (SortedSide (⟨[], [], false⟩ : BookData).ask ∧
      BookData.update_asks ⟨[], [], false⟩
          [("1", "1", "0"), ("2", "1", "0"), ("3", "1", "0")] 2 =
        (⟨[((1 : Rat), ⟨1, 0, "1", "1"⟩), ((2 : Rat), ⟨1, 0, "2", "1"⟩)], [], false⟩,
          none) ∧
      ((⟨[((1 : Rat), ⟨1, 0, "1", "1"⟩), ((2 : Rat), ⟨1, 0, "2", "1"⟩)], [], false⟩ :
          BookData).ask.length ≤ 2 ∧
        ∃ rest,
          (update_internal []
            [("1", "1", "0"), ("2", "1", "0"), ("3", "1", "0")]).1 =
            (⟨[((1 : Rat), ⟨1, 0, "1", "1"⟩), ((2 : Rat), ⟨1, 0, "2", "1"⟩)], [], false⟩ :
              BookData).ask ++ rest ∧
          ∀ x ∈ (⟨[((1 : Rat), ⟨1, 0, "1", "1"⟩), ((2 : Rat), ⟨1, 0, "2", "1"⟩)], [],
              false⟩ : BookData).ask, ∀ y ∈ rest, x.1 < y.1)) ∧
    (BookData.update_bids ⟨[], [], false⟩
        [("1", "1", "0"), ("2", "1", "0"), ("3", "1", "0")] 2 =
      (⟨[], [((2 : Rat), ⟨1, 0, "2", "1"⟩), ((3 : Rat), ⟨1, 0, "3", "1"⟩)], false⟩,
        none) ∧
      ((⟨[], [((2 : Rat), ⟨1, 0, "2", "1"⟩), ((3 : Rat), ⟨1, 0, "3", "1"⟩)], false⟩ :
          BookData).bid.length ≤ 2 ∧
        ∃ pre,
          (update_internal []
            [("1", "1", "0"), ("2", "1", "0"), ("3", "1", "0")]).1 =
            pre ++ (⟨[], [((2 : Rat), ⟨1, 0, "2", "1"⟩), ((3 : Rat), ⟨1, 0, "3", "1"⟩)],
              false⟩ : BookData).bid ∧
          ∀ y ∈ pre, ∀ x ∈ (⟨[], [((2 : Rat), ⟨1, 0, "2", "1"⟩),
              ((3 : Rat), ⟨1, 0, "3", "1"⟩)], false⟩ : BookData).bid, y.1 < x.1)) :=
  ⟨⟨by decide, by decide,
    (C1_depth_truncation ⟨[], [], false⟩
      [("1", "1", "0"), ("2", "1", "0"), ("3", "1", "0")] 2
      ⟨[((1 : Rat), ⟨1, 0, "1", "1"⟩), ((2 : Rat), ⟨1, 0, "2", "1"⟩)], [], false⟩).1
      (by decide) (by decide)⟩,
   by decide,
   (C1_depth_truncation ⟨[], [], false⟩
      [("1", "1", "0"), ("2", "1", "0"), ("3", "1", "0")] 2
      ⟨[], [((2 : Rat), ⟨1, 0, "2", "1"⟩), ((3 : Rat), ⟨1, 0, "3", "1"⟩)], false⟩).2
      (by decide) (by decide)⟩

theorem apply_update_objs_append (objs1 objs2 : List BookUpdateObj) :
    ∀ (book : BookData) (nu : Bool) (depth : Nat) (book' : BookData) (nu' : Bool),
      apply_update_objs book nu objs1 depth = (book', nu', none) →
      apply_update_objs book nu (objs1 ++ objs2) depth =
        apply_update_objs book' nu' objs2 depth := by
  induction objs1 with
  | nil =>
    intro book nu depth book' nu' h
    injection h with h1 h2
    injection h2 with h3 _
    subst h1; subst h3
    rw [List.nil_append]
  | cons obj rest ih =>
    intro book nu depth book' nu' h
    rcases hab : apply_update_obj_ab book obj depth with ⟨b1, e1⟩
    cases e1 with
    | some err =>
      have hstep : apply_update_objs book nu (obj :: rest) depth = (b1, nu, some err) := by
        simp only [apply_update_objs, hab]
      rw [hstep] at h
      injection h with _ h2
      injection h2 with _ h4
      cases h4
    | none =>
      cases hc : obj.c with
      | none =>
        have hstep : apply_update_objs book nu (obj :: rest) depth =
            apply_update_objs b1 nu rest depth := by
          simp only [apply_update_objs, hab, hc]
        rw [hstep] at h
        have hstep2 : apply_update_objs book nu ((obj :: rest) ++ objs2) depth =
            apply_update_objs b1 nu (rest ++ objs2) depth := by
          simp only [List.cons_append, apply_update_objs, hab, hc]
          rfl
        rw [hstep2]
        exact ih _ _ _ _ _ h
      | some cs =>
        cases hp : parse_u32 cs with
        | none =>
          have hstep : apply_update_objs book nu (obj :: rest) depth =
              (b1, nu, some "checksum value could not parse as u32") := by
            simp only [apply_update_objs, hab, hc, hp]
          rw [hstep] at h
          injection h with _ h2
          injection h2 with _ h4
          cases h4
        | some expected =>
          by_cases hne : b1.checksum ≠ expected
          · have hstep : apply_update_objs book nu (obj :: rest) depth =
                ({ b1 with checksum_failed := true }, true, some "checksum mismatch") := by
              simp only [apply_update_objs, hab, hc, hp, if_pos hne]
            rw [hstep] at h
            injection h with _ h2
            injection h2 with _ h4
            cases h4
          · have hstep : apply_update_objs book nu (obj :: rest) depth =
                apply_update_objs b1 nu rest depth := by
              simp only [apply_update_objs, hab, hc, hp, if_neg hne]
            rw [hstep] at h
            have hstep2 : apply_update_objs book nu ((obj :: rest) ++ objs2) depth =
                apply_update_objs b1 nu (rest ++ objs2) depth := by
              simp only [List.cons_append, apply_update_objs, hab, hc, hp, if_neg hne]
              rfl
            rw [hstep2]
            exact ih _ _ _ _ _ h

theorem apply_update_objs_mismatch (cobj : BookUpdateObj) (book : BookData) (nu : Bool)
    (depth : Nat) (b₂ : BookData) (cs : String) (expected : Nat) :
    apply_update_obj_ab book cobj depth = (b₂, none) →
    cobj.c = some cs →
    parse_u32 cs = some expected →
    b₂.checksum ≠ expected →
    apply_update_objs book nu [cobj] depth =
      ({ b₂ with checksum_failed := true }, true, some "checksum mismatch") := by
  intro hab hc hp hne
  simp only [apply_update_objs, hab, hc, hp, if_pos hne]

/-- C2: when an incremental book frame carries a checksum that differs
from the locally computed book checksum, the frame handler marks the book
corrupt (`checksum_failed := true`), flags the subscription for an
unsubscribe cycle (`needs_unsubscribe := true`) and returns the
"checksum mismatch" error; this error is non-fatal at stream level:
`update` still returns `Ok(())` with the same resulting state, so the
stream continues. -/
theorem C2_checksum_mismatch :
    ∀ (st : ClientBookState) (objs : List BookUpdateObj) (cobj : BookUpdateObj)
      (depth : Nat) (b₁ b₂ : BookData) (nu₁ : Bool) (cs : String) (expected : Nat),
      st.sub.status = .subscribed →
      (∀ fo, (objs ++ [cobj]).head? = some fo →
        fo.as_snap = none ∧ (fo.a.isSome || fo.b.isSome) = true) →
      apply_update_objs st.book st.sub.needs_unsubscribe objs depth = (b₁, nu₁, none) →
      apply_update_obj_ab b₁ cobj depth = (b₂, none) →
      cobj.c = some cs →
      parse_u32 cs = some expected →
      b₂.checksum ≠ expected →
      handle_book_array st (objs ++ [cobj]) depth =
        ({ book := { b₂ with checksum_failed := true },
           sub := { st.sub with needs_unsubscribe := true } }, some "checksum mismatch") ∧
      update_on_book_text st (objs ++ [cobj]) depth =
        ({ book := { b₂ with checksum_failed := true },
           sub := { st.sub with needs_unsubscribe := true } }, .ok ()) := by
  intro st objs cobj depth b₁ b₂ nu₁ cs expected hsub hfirst hobjs hab hc hp hne
  have hloop : apply_update_objs st.book st.sub.needs_unsubscribe (objs ++ [cobj]) depth =
      ({ b₂ with checksum_failed := true }, true, some "checksum mismatch") := by
    rw [apply_update_objs_append objs [cobj] _ _ _ _ _ hobjs]
    exact apply_update_objs_mismatch cobj b₁ nu₁ depth b₂ cs expected hab hc hp hne
  have hsubd : st.sub.status.is_subscribed = true := by rw [hsub]; rfl
  have hcond : ¬ ¬ (st.sub.status.is_subscribed = true) := not_not_intro hsubd
  have hmain : handle_book_array st (objs ++ [cobj]) depth =
      ({ book := { b₂ with checksum_failed := true },
         sub := { st.sub with needs_unsubscribe := true } }, some "checksum mismatch") := by
    cases objs with
    | nil =>
      obtain ⟨hsnap, hab2⟩ := hfirst cobj rfl
      rw [List.nil_append] at hloop ⊢
      unfold handle_book_array
      rw [if_neg hcond]
      simp only [hsnap, hab2, if_true, hloop]
    | cons o os =>
      obtain ⟨hsnap, hab2⟩ := hfirst o rfl
      rw [List.cons_append] at hloop ⊢
      unfold handle_book_array
      rw [if_neg hcond]
      simp only [hsnap, hab2, if_true, hloop]
  refine ⟨hmain, ?_⟩
  unfold update_on_book_text
  rw [hmain]

/-- C2 witness: an incremental frame over an empty subscribed book whose
sent checksum "1" differs from the computed checksum 0: the book is marked
corrupt, the subscription flagged, the handler errors, yet `update`
returns `Ok`. -/
theorem C2_checksum_mismatch_witness :
    ((⟨BookData.default, SubscriptionState.new .subscribed⟩ :
        ClientBookState).sub.status = .subscribed ∧
      apply_update_obj_ab BookData.default ⟨none, none, some [], none, some "1"⟩ 10 =
        (BookData.default, none) ∧
      parse_u32 "1" = some 1 ∧
      BookData.default.checksum ≠ 1) ∧
    handle_book_array ⟨BookData.default, SubscriptionState.new .subscribed⟩
        [⟨none, none, some [], none, some "1"⟩] 10 =
      ({ book := { BookData.default with checksum_failed := true },
         sub := { SubscriptionState.new .subscribed with needs_unsubscribe := true } },
        some "checksum mismatch") ∧
    update_on_book_text ⟨BookData.default, SubscriptionState.new .subscribed⟩
        [⟨none, none, some [], none, some "1"⟩] 10 =
      ({ book := { BookData.default with checksum_failed := true },
         sub := { SubscriptionState.new .subscribed with needs_unsubscribe := true } },
        .ok ()) := by
  have h := C2_checksum_mismatch ⟨BookData.default, SubscriptionState.new .subscribed⟩
    [] ⟨none, none, some [], none, some "1"⟩ 10 BookData.default BookData.default false
    "1" 1 rfl
    (fun fo hfo => by injection hfo with h1; rw [← h1]; exact ⟨rfl, rfl⟩)
    rfl (by decide) rfl (by decide) (by decide)
  rw [List.nil_append] at h
  exact ⟨⟨rfl, by decide, by decide, by decide⟩, h.1, h.2⟩

theorem length_insertEntry_of_not_mem (k : Rat) (v : BookEntry) :
    ∀ l : Side, k ∉ l.map Prod.fst → (insertEntry k v l).length = l.length + 1 := by
  intro l
  induction l with
  | nil => intro _; rfl
  | cons hd tl ih =>
    intro hk
    simp only [List.map_cons, List.mem_cons] at hk
    push_neg at hk
    simp only [insertEntry]
    by_cases h1 : k < hd.1
    · rw [if_pos h1]; rfl
    · rw [if_neg h1, if_neg hk.1, List.length_cons, List.length_cons, ih hk.2]

theorem mem_insertEntry_iff (k : Rat) (v : BookEntry) :
    ∀ l : Side, k ∉ l.map Prod.fst →
      ∀ x : Rat × BookEntry, x ∈ insertEntry k v l ↔ x = (k, v) ∨ x ∈ l := by
  intro l
  induction l with
  | nil =>
    intro _ x
    simp [insertEntry]
  | cons hd tl ih =>
    intro hk x
    simp only [List.map_cons, List.mem_cons] at hk
    push_neg at hk
    simp only [insertEntry]
    by_cases h1 : k < hd.1
    · rw [if_pos h1]
      simp [List.mem_cons, or_assoc]
    · rw [if_neg h1, if_neg hk.1]
      rw [List.mem_cons, List.mem_cons, ih hk.2 x]
      tauto

theorem mem_keys_insertEntry (k : Rat) (v : BookEntry) (l : Side) (x : Rat) :
    x ∈ (insertEntry k v l).map Prod.fst → x = k ∨ x ∈ l.map Prod.fst := by
  intro hx
  rcases List.mem_map.mp hx with ⟨p, hp, hpx⟩
  rcases mem_insertEntry k v l p hp with h | h
  · left; rw [← hpx, h]
  · right; exact List.mem_map.mpr ⟨p, h, hpx⟩

theorem parsedEntry_inv (t : RawLevel) (pe : Rat × BookEntry) :
    parsedEntry t = some pe →
    parseDecimal t.1 = some pe.1 ∧
    parseDecimal t.2.1 = some pe.2.volume ∧
    parseDecimal t.2.2 = some pe.2.timestamp ∧
    pe.2.price_str = t.1 ∧ pe.2.volume_str = t.2.1 := by
  obtain ⟨pk, pv⟩ := pe
  intro h
  unfold parsedEntry at h
  rcases hp : parseDecimal t.1 with _ | p <;> rw [hp] at h
  · cases h
  rcases hv : parseDecimal t.2.1 with _ | v <;> rw [hv] at h
  · cases h
  rcases ht : parseDecimal t.2.2 with _ | ti <;> rw [ht] at h
  · cases h
  injection h with h1
  injection h1 with h1a h1b
  subst h1a
  subst h1b
  exact ⟨rfl, rfl, rfl, rfl, rfl⟩

theorem update_internal_from_disjoint (ts : List RawLevel) :
    ∀ (m : Side) (ls : List (Rat × BookEntry)),
      ts.map parsedEntry = ls.map some →
      (∀ x ∈ ls, x.2.volume ≠ 0) →
      (ls.map Prod.fst).Nodup →
      (∀ k ∈ ls.map Prod.fst, k ∉ m.map Prod.fst) →
      (update_internal m ts).2 = none ∧
      (update_internal m ts).1.length = m.length + ls.length ∧
      (∀ x, x ∈ (update_internal m ts).1 ↔ x ∈ m ∨ x ∈ ls) := by
  induction ts with
  | nil =>
    intro m ls hmap _ _ _
    have hls : ls = [] := by
      cases ls with
      | nil => rfl
      | cons a l => simp at hmap
    subst hls
    exact ⟨rfl, by simp [update_internal], fun x => by simp [update_internal]⟩
  | cons t ts' ih =>
    intro m ls hmap hvol hnd hdisj
    cases ls with
    | nil => simp at hmap
    | cons pe ls' =>
      rw [List.map_cons, List.map_cons] at hmap
      injection hmap with h1 h2
      obtain ⟨hp, hv, ht, hps, hvs⟩ := parsedEntry_inv t pe h1
      have hvz : pe.2.volume ≠ 0 := hvol pe (List.mem_cons_self _ _)
      have hentry : (⟨pe.2.volume, pe.2.timestamp, t.1, t.2.1⟩ : BookEntry) = pe.2 := by
        rw [← hps, ← hvs]
      have hstep : update_internal m (t :: ts') =
          update_internal (insertEntry pe.1 pe.2 m) ts' := by
        simp only [update_internal, hp, hv, ht, if_neg hvz, hentry]
      have hknotm : pe.1 ∉ m.map Prod.fst :=
        hdisj pe.1 (by rw [List.map_cons]; exact List.mem_cons_self _ _)
      have hndtl : (ls'.map Prod.fst).Nodup := by
        rw [List.map_cons, List.nodup_cons] at hnd; exact hnd.2
      have hkeys : ∀ k ∈ ls'.map Prod.fst, k ∉ (insertEntry pe.1 pe.2 m).map Prod.fst := by
        intro k hk hmem
        rcases mem_keys_insertEntry pe.1 pe.2 m k hmem with h | h
        · rw [List.map_cons, List.nodup_cons] at hnd
          exact hnd.1 (h ▸ hk)
        · exact hdisj k (by rw [List.map_cons]; exact List.mem_cons_of_mem _ hk) h
      obtain ⟨ih1, ih2, ih3⟩ := ih (insertEntry pe.1 pe.2 m) ls' h2
        (fun x hx => hvol x (List.mem_cons_of_mem _ hx)) hndtl hkeys
      rw [hstep]
      refine ⟨ih1, ?_, ?_⟩
      · rw [ih2, length_insertEntry_of_not_mem pe.1 pe.2 m hknotm]
        rw [List.length_cons]
        omega
      · intro x
        rw [ih3 x, mem_insertEntry_iff pe.1 pe.2 m hknotm x]
        constructor
        · rintro ((hx | hx) | hx)
          · exact Or.inr (List.mem_cons.mpr (Or.inl hx))
          · exact Or.inl hx
          · exact Or.inr (List.mem_cons_of_mem _ hx)
        · rintro (hx | hx)
          · exact Or.inl (Or.inr hx)
          · rcases List.mem_cons.mp hx with hx | hx
            · exact Or.inl (Or.inl hx)
            · exact Or.inr hx

/-- C5: a snapshot frame (key "as" present, "bs" present) first clears the
pair's book — so the result does not depend on the previous book state and
`checksum_failed` is reset to `false` — and afterwards the book contains
exactly the entries listed in the snapshot's ask and bid arrays and no
others, provided each side's array parses, lists at most `depth` entries,
has pairwise distinct prices and no zero volumes. -/
theorem C5_snapshot :
    ∀ (st : ClientBookState) (first_obj : BookUpdateObj) (rest : List BookUpdateObj)
      (asv bsv : List RawLevel) (depth : Nat) (las lbs : List (Rat × BookEntry)),
      st.sub.status = .subscribed →
      first_obj.as_snap = some asv →
      first_obj.bs_snap = some bsv →
      asv.map parsedEntry = las.map some →
      bsv.map parsedEntry = lbs.map some →
      (∀ x ∈ las, x.2.volume ≠ 0) →
      (las.map Prod.fst).Nodup →
      las.length ≤ depth →
      (∀ x ∈ lbs, x.2.volume ≠ 0) →
      (lbs.map Prod.fst).Nodup →
      lbs.length ≤ depth →
      (handle_book_array st (first_obj :: rest) depth).2 = none ∧
      (handle_book_array st (first_obj :: rest) depth).1.book.checksum_failed = false ∧
      (∀ x, x ∈ (handle_book_array st (first_obj :: rest) depth).1.book.ask ↔ x ∈ las) ∧
      (∀ x, x ∈ (handle_book_array st (first_obj :: rest) depth).1.book.bid ↔ x ∈ lbs) ∧
      (∀ st₂ : ClientBookState, st₂.sub.status = .subscribed →
        (handle_book_array st₂ (first_obj :: rest) depth).1.book =
          (handle_book_array st (first_obj :: rest) depth).1.book) := by
  intro st first_obj rest asv bsv depth las lbs hsub has hbs hmap_a hmap_b
    hva hnda hla hvb hndb hlb
  obtain ⟨hea, hlena, hmema⟩ :=
    update_internal_from_disjoint asv [] las hmap_a hva hnda (by simp)
  obtain ⟨heb, hlenb, hmemb⟩ :=
    update_internal_from_disjoint bsv [] lbs hmap_b hvb hndb (by simp)
  rcases hUA : update_internal ([] : Side) asv with ⟨A, ea⟩
  rcases hUB : update_internal ([] : Side) bsv with ⟨B, eb⟩
  rw [hUA] at hea hlena hmema
  rw [hUB] at heb hlenb hmemb
  simp only at hea heb hlena hlenb
  subst hea; subst heb
  simp only [List.length_nil, Nat.zero_add] at hlena hlenb
  simp only [List.not_mem_nil, false_or] at hmema hmemb
  have hlenA : ¬ A.length > depth := by omega
  have hlenB : ¬ B.length > depth := by omega
  have hask : BookData.update_asks BookData.default asv depth =
      ({ BookData.default with ask := A }, none) := by
    simp only [BookData.update_asks,
      show BookData.default.ask = ([] : Side) from rfl, hUA, if_neg hlenA]
  have hbid : BookData.update_bids { BookData.default with ask := A } bsv depth =
      ({ BookData.default with ask := A, bid := B }, none) := by
    simp only [BookData.update_bids,
      show BookData.default.bid = ([] : Side) from rfl,
      hUB, if_neg hlenB]
  have hhandle : ∀ st₀ : ClientBookState, st₀.sub.status = .subscribed →
      handle_book_array st₀ (first_obj :: rest) depth =
        ({ book := { BookData.default with ask := A, bid := B }, sub := st₀.sub },
          none) := by
    intro st₀ hs₀
    have hsubd : ¬ ¬ (st₀.sub.status.is_subscribed = true) :=
      not_not_intro (by rw [hs₀]; rfl)
    simp only [handle_book_array, if_neg hsubd, has, BookData.clear, hask, hbs, hbid]
  refine ⟨?_, ?_, ?_, ?_, ?_⟩
  · rw [hhandle st hsub]
  · rw [hhandle st hsub]
    rfl
  · intro x
    rw [hhandle st hsub]
    exact hmema x
  · intro x
    rw [hhandle st hsub]
    exact hmemb x
  · intro st₂ h₂
    rw [hhandle st hsub, hhandle st₂ h₂]

/-- C5 witness: a snapshot with one ask and one bid over a corrupt,
non-empty book yields exactly those two entries, clears the corrupt flag,
and the result does not depend on the prior state. -/
theorem C5_snapshot_witness :
    (c5_st.sub.status = .subscribed ∧
      c5_obj.as_snap = some [("1.5", "2", "0")] ∧
      c5_obj.bs_snap = some [("1.0", "3", "0")] ∧
      ([("1.5", "2", "0")] : List RawLevel).map parsedEntry = c5_las.map some ∧
      ([("1.0", "3", "0")] : List RawLevel).map parsedEntry = c5_lbs.map some ∧
      (∀ x ∈ c5_las, x.2.volume ≠ 0) ∧ (c5_las.map Prod.fst).Nodup ∧
      c5_las.length ≤ 10 ∧
      (∀ x ∈ c5_lbs, x.2.volume ≠ 0) ∧ (c5_lbs.map Prod.fst).Nodup ∧
      c5_lbs.length ≤ 10) ∧
    ((handle_book_array c5_st [c5_obj] 10).2 = none ∧
      (handle_book_array c5_st [c5_obj] 10).1.book.checksum_failed = false ∧
      (∀ x, x ∈ (handle_book_array c5_st [c5_obj] 10).1.book.ask ↔ x ∈ c5_las) ∧
      (∀ x, x ∈ (handle_book_array c5_st [c5_obj] 10).1.book.bid ↔ x ∈ c5_lbs) ∧
      (∀ st₂ : ClientBookState, st₂.sub.status = .subscribed →
        (handle_book_array st₂ [c5_obj] 10).1.book =
          (handle_book_array c5_st [c5_obj] 10).1.book)) :=
  ⟨⟨rfl, rfl, rfl, by decide, by decide, by decide, by decide, by decide,
    by decide, by decide, by decide⟩,
   C5_snapshot c5_st c5_obj [] [("1.5", "2", "0")] [("1.0", "3", "0")] 10 c5_las c5_lbs
     rfl rfl rfl (by decide) (by decide) (by decide) (by decide) (by decide)
     (by decide) (by decide) (by decide)⟩

end Krakenrs
